/-
Verification of the Servo Bus Control Engine (src/core/servos.py).

Shallow embedding: the calibration-driven angle <-> raw-position mapping is
modelled over ℤ (raw positions) and ℚ (Python floats), and the connection /
torque / calibration state machine is modelled as explicit state passing over
a `St` record, with bus outcomes supplied by an oracle in `Env`.
-/
import Mathlib

/-! ## Angle mapping (Servos._angle_to_position / Servos._position_to_angle) -/

/-- Truncation toward zero, as Python's `int()` applied to a float. -/
def intTrunc (q : ℚ) : ℤ := if q < 0 then ⌈q⌉ else ⌊q⌋

/-- `Servos._angle_to_position` for one calibration triple.  Mirrors the
source: reversed servos (`min_pos > max_pos`) swap min/max and negate the
angle; the positive side scales by `abs(actual_max - zero)`, the negative by
`abs(zero - actual_min)`; the result is truncated by Python's `int()`. -/
def angleToPosition (zero minPos maxPos : ℤ) (angle : ℚ) : ℤ :=
  if angle = 0 then zero
  else
    let actualMin := if maxPos < minPos then maxPos else minPos
    let actualMax := if maxPos < minPos then minPos else maxPos
    let workingAngle := if maxPos < minPos then -angle else angle
    if 0 < workingAngle then
      intTrunc ((zero : ℚ) + workingAngle / 90 * ((|actualMax - zero| : ℤ) : ℚ))
    else
      intTrunc ((zero : ℚ) - |workingAngle| / 90 * ((|zero - actualMin| : ℤ) : ℚ))

/-- `Servos._position_to_angle` for one calibration triple.  Mirrors the
source including its three divide-by-zero guards (`full_range`, `pos_range`,
`neg_range`) and the sign flips for reversed servos. -/
def positionToAngle (zero minPos maxPos position : ℤ) : ℚ :=
  if position = zero then 0
  else
    let actualMin := if maxPos < minPos then maxPos else minPos
    let actualMax := if maxPos < minPos then minPos else maxPos
    if |actualMax - actualMin| = 0 then 0
    else if zero < position then
      if |actualMax - zero| = 0 then 0
      else
        let angle : ℚ := 90 * ((|position - zero| : ℤ) : ℚ) / ((|actualMax - zero| : ℤ) : ℚ)
        if maxPos < minPos then -angle else angle
    else
      if |zero - actualMin| = 0 then 0
      else
        let angle : ℚ := 90 * ((|zero - position| : ℤ) : ℚ) / ((|zero - actualMin| : ℤ) : ℚ)
        if maxPos < minPos then angle else -angle

/-- The raw span the code divides by for a given angle sign: positive angles
use the distance from `zero` to `max`, negative ones the distance to `min`
(this is independent of servo reversal, which swaps both span and sign). -/
def sideSpan (zero minPos maxPos : ℤ) (angle : ℚ) : ℤ :=
  if 0 < angle then |maxPos - zero| else |zero - minPos|

/-- The effective divisor of `positionToAngle` for a given position: the
swapped (`actual_max`/`actual_min`) span on each side of `zero`. -/
def relevantSpan (zero minPos maxPos position : ℤ) : ℤ :=
  if zero < position then |(if maxPos < minPos then minPos else maxPos) - zero|
  else |zero - (if maxPos < minPos then maxPos else minPos)|

lemma intTrunc_sub_le (q : ℚ) : |(intTrunc q : ℚ) - q| ≤ 1 := by
  unfold intTrunc
  split
  · rw [abs_le]
    constructor
    · have := Int.le_ceil q
      linarith
    · have := Int.ceil_lt_add_one q
      linarith
  · rw [abs_le]
    constructor
    · have := Int.sub_one_lt_floor q
      linarith
    · have := Int.floor_le q
      linarith

lemma le_intTrunc {n : ℤ} {q : ℚ} (h : (n : ℚ) ≤ q) : n ≤ intTrunc q := by
  unfold intTrunc
  split
  · have h2 : (n : ℚ) ≤ (⌈q⌉ : ℚ) := le_trans h (Int.le_ceil q)
    exact_mod_cast h2
  · exact Int.le_floor.mpr h

lemma intTrunc_le {n : ℤ} {q : ℚ} (h : q ≤ (n : ℚ)) : intTrunc q ≤ n := by
  unfold intTrunc
  split
  · exact Int.ceil_le.mpr h
  · have h2 : (⌊q⌋ : ℚ) ≤ (n : ℚ) := le_trans (Int.floor_le q) h
    exact_mod_cast h2

/-- Positive-side core bound: truncating `zero + w/90·S` loses less than one
raw unit, so converting back recovers `w` up to `90/S` degrees. -/
lemma pos_side (z S : ℤ) (w : ℚ) (hS : 0 < S) (hw : 0 < w) :
    z ≤ intTrunc ((z : ℚ) + w / 90 * (S : ℚ)) ∧
    |90 * ((intTrunc ((z : ℚ) + w / 90 * (S : ℚ)) - z : ℤ) : ℚ) / (S : ℚ) - w|
      ≤ 90 / (S : ℚ) := by
  have hSQ : (0 : ℚ) < (S : ℚ) := by exact_mod_cast hS
  set y : ℚ := (z : ℚ) + w / 90 * (S : ℚ) with hy
  have hzy : (z : ℚ) ≤ y := by
    rw [hy]
    have : 0 < w / 90 * (S : ℚ) := by positivity
    linarith
  have h1 : z ≤ intTrunc y := le_intTrunc hzy
  refine ⟨h1, ?_⟩
  have h2 : |(intTrunc y : ℚ) - y| ≤ 1 := intTrunc_sub_le y
  have key : 90 * ((intTrunc y - z : ℤ) : ℚ) / (S : ℚ) - w
      = (90 / (S : ℚ)) * ((intTrunc y : ℚ) - y) := by
    rw [hy]
    push_cast
    field_simp
    ring
  rw [key, abs_mul, abs_of_pos (by positivity : (0 : ℚ) < 90 / (S : ℚ))]
  have h3 := mul_le_mul_of_nonneg_left h2
    (le_of_lt (by positivity : (0 : ℚ) < 90 / (S : ℚ)))
  simpa using h3

/-- Negative-side core bound, mirror image of `pos_side`. -/
lemma neg_side (z S : ℤ) (w : ℚ) (hS : 0 < S) (hw : 0 < w) :
    intTrunc ((z : ℚ) - w / 90 * (S : ℚ)) ≤ z ∧
    |90 * ((z - intTrunc ((z : ℚ) - w / 90 * (S : ℚ)) : ℤ) : ℚ) / (S : ℚ) - w|
      ≤ 90 / (S : ℚ) := by
  have hSQ : (0 : ℚ) < (S : ℚ) := by exact_mod_cast hS
  set y : ℚ := (z : ℚ) - w / 90 * (S : ℚ) with hy
  have hzy : y ≤ (z : ℚ) := by
    rw [hy]
    have : 0 < w / 90 * (S : ℚ) := by positivity
    linarith
  have h1 : intTrunc y ≤ z := intTrunc_le hzy
  refine ⟨h1, ?_⟩
  have h2 : |(intTrunc y : ℚ) - y| ≤ 1 := intTrunc_sub_le y
  have key : 90 * ((z - intTrunc y : ℤ) : ℚ) / (S : ℚ) - w
      = (90 / (S : ℚ)) * (y - (intTrunc y : ℚ)) := by
    rw [hy]
    push_cast
    field_simp
    ring
  rw [key, abs_mul, abs_of_pos (by positivity : (0 : ℚ) < 90 / (S : ℚ))]
  have h2' : |y - (intTrunc y : ℚ)| ≤ 1 := by
    rw [abs_sub_comm]
    exact h2
  have h3 := mul_le_mul_of_nonneg_left h2'
    (le_of_lt (by positivity : (0 : ℚ) < 90 / (S : ℚ)))
  simpa using h3

lemma p2a_up_nonrev (z m M p : ℤ) (hrev : ¬ M < m) (hMm : M ≠ m) (hMz : M ≠ z)
    (hzp : z ≤ p) :
    positionToAngle z m M p = 90 * ((p - z : ℤ) : ℚ) / ((|M - z| : ℤ) : ℚ) := by
  have hfull : ¬ (|M - m| = 0) := by
    rw [abs_eq_zero, sub_eq_zero]
    exact hMm
  have hspan : ¬ (|M - z| = 0) := by
    rw [abs_eq_zero, sub_eq_zero]
    exact hMz
  rcases eq_or_lt_of_le hzp with h | h
  · unfold positionToAngle
    rw [if_pos h.symm, ← h]
    simp
  · unfold positionToAngle
    simp only [if_neg hrev, if_neg (by omega : ¬ p = z), if_neg hfull, if_pos h,
      if_neg hspan]
    rw [abs_of_nonneg (by omega : (0 : ℤ) ≤ p - z)]

lemma p2a_down_nonrev (z m M p : ℤ) (hrev : ¬ M < m) (hMm : M ≠ m) (hmz : m ≠ z)
    (hpz : p ≤ z) :
    positionToAngle z m M p = -(90 * ((z - p : ℤ) : ℚ) / ((|z - m| : ℤ) : ℚ)) := by
  have hfull : ¬ (|M - m| = 0) := by
    rw [abs_eq_zero, sub_eq_zero]
    exact hMm
  have hspan : ¬ (|z - m| = 0) := by
    rw [abs_eq_zero, sub_eq_zero]
    omega
  rcases eq_or_lt_of_le hpz with h | h
  · unfold positionToAngle
    rw [if_pos h, h]
    simp
  · unfold positionToAngle
    simp only [if_neg (by omega : ¬ p = z), if_neg hrev, if_neg hfull,
      if_neg (by omega : ¬ z < p), if_neg hspan]
    rw [abs_of_nonneg (by omega : (0 : ℤ) ≤ z - p)]

lemma p2a_up_rev (z m M p : ℤ) (hrev : M < m) (hMm : M ≠ m) (hmz : m ≠ z)
    (hzp : z ≤ p) :
    positionToAngle z m M p = -(90 * ((p - z : ℤ) : ℚ) / ((|m - z| : ℤ) : ℚ)) := by
  have hfull : ¬ (|m - M| = 0) := by
    rw [abs_eq_zero, sub_eq_zero]
    omega
  have hspan : ¬ (|m - z| = 0) := by
    rw [abs_eq_zero, sub_eq_zero]
    exact hmz
  rcases eq_or_lt_of_le hzp with h | h
  · unfold positionToAngle
    rw [if_pos h.symm, ← h]
    simp
  · unfold positionToAngle
    simp only [if_pos hrev, if_neg (by omega : ¬ p = z), if_neg hfull, if_pos h,
      if_neg hspan]
    rw [abs_of_nonneg (by omega : (0 : ℤ) ≤ p - z)]

lemma p2a_down_rev (z m M p : ℤ) (hrev : M < m) (hMm : M ≠ m) (hMz : M ≠ z)
    (hpz : p ≤ z) :
    positionToAngle z m M p = 90 * ((z - p : ℤ) : ℚ) / ((|z - M| : ℤ) : ℚ) := by
  have hfull : ¬ (|m - M| = 0) := by
    rw [abs_eq_zero, sub_eq_zero]
    omega
  have hspan : ¬ (|z - M| = 0) := by
    rw [abs_eq_zero, sub_eq_zero]
    omega
  rcases eq_or_lt_of_le hpz with h | h
  · unfold positionToAngle
    rw [if_pos h, h]
    simp
  · unfold positionToAngle
    simp only [if_pos hrev, if_neg (by omega : ¬ p = z), if_neg hfull,
      if_neg (by omega : ¬ z < p), if_neg hspan]
    rw [abs_of_nonneg (by omega : (0 : ℤ) ≤ z - p)]

lemma roundtrip_up_nonrev (z m M : ℤ) (hrev : ¬ M < m) (hMz : M ≠ z) (hMm : M ≠ m)
    (a : ℚ) (hpos : 0 < a) :
    |positionToAngle z m M (angleToPosition z m M a) - a|
      ≤ 90 / ((|M - z| : ℤ) : ℚ) := by
  have hSpos : 0 < |M - z| := abs_pos.mpr (sub_ne_zero.mpr hMz)
  obtain ⟨hzp, hbound⟩ := pos_side z (|M - z|) a hSpos hpos
  have ha2p : angleToPosition z m M a
      = intTrunc ((z : ℚ) + a / 90 * ((|M - z| : ℤ) : ℚ)) := by
    unfold angleToPosition
    simp only [if_neg (ne_of_gt hpos), if_neg hrev, if_pos hpos]
  rw [ha2p, p2a_up_nonrev z m M _ hrev hMm hMz hzp]
  exact hbound

lemma roundtrip_down_nonrev (z m M : ℤ) (hrev : ¬ M < m) (hmz : m ≠ z) (hMm : M ≠ m)
    (a : ℚ) (hneg : a < 0) :
    |positionToAngle z m M (angleToPosition z m M a) - a|
      ≤ 90 / ((|z - m| : ℤ) : ℚ) := by
  have hSpos : 0 < |z - m| := abs_pos.mpr (sub_ne_zero.mpr (fun h => hmz h.symm))
  have hw : 0 < -a := by linarith
  obtain ⟨hpz, hbound⟩ := neg_side z (|z - m|) (-a) hSpos hw
  have ha2p : angleToPosition z m M a
      = intTrunc ((z : ℚ) - (-a) / 90 * ((|z - m| : ℤ) : ℚ)) := by
    unfold angleToPosition
    simp only [if_neg (ne_of_lt hneg), if_neg hrev,
      if_neg (by linarith : ¬ (0 : ℚ) < a), abs_of_neg hneg]
  rw [ha2p, p2a_down_nonrev z m M _ hrev hMm hmz hpz]
  have key : ∀ X : ℚ, -X - a = -(X - (-a)) := fun X => by ring
  rw [key, abs_neg]
  exact hbound

lemma roundtrip_pos_rev (z m M : ℤ) (hrev : M < m) (hMz : M ≠ z) (hMm : M ≠ m)
    (a : ℚ) (hpos : 0 < a) :
    |positionToAngle z m M (angleToPosition z m M a) - a|
      ≤ 90 / ((|z - M| : ℤ) : ℚ) := by
  have hSpos : 0 < |z - M| := abs_pos.mpr (sub_ne_zero.mpr (fun h => hMz h.symm))
  obtain ⟨hpz, hbound⟩ := neg_side z (|z - M|) a hSpos hpos
  have ha2p : angleToPosition z m M a
      = intTrunc ((z : ℚ) - a / 90 * ((|z - M| : ℤ) : ℚ)) := by
    unfold angleToPosition
    simp only [if_neg (ne_of_gt hpos), if_pos hrev,
      if_neg (by linarith : ¬ (0 : ℚ) < -a), abs_neg, abs_of_pos hpos]
  rw [ha2p, p2a_down_rev z m M _ hrev hMm hMz hpz]
  exact hbound

lemma roundtrip_neg_rev (z m M : ℤ) (hrev : M < m) (hmz : m ≠ z) (hMm : M ≠ m)
    (a : ℚ) (hneg : a < 0) :
    |positionToAngle z m M (angleToPosition z m M a) - a|
      ≤ 90 / ((|m - z| : ℤ) : ℚ) := by
  have hSpos : 0 < |m - z| := abs_pos.mpr (sub_ne_zero.mpr hmz)
  have hw : 0 < -a := by linarith
  obtain ⟨hzp, hbound⟩ := pos_side z (|m - z|) (-a) hSpos hw
  have ha2p : angleToPosition z m M a
      = intTrunc ((z : ℚ) + (-a) / 90 * ((|m - z| : ℤ) : ℚ)) := by
    unfold angleToPosition
    simp only [if_neg (ne_of_lt hneg), if_pos hrev, if_pos hw]
  rw [ha2p, p2a_up_rev z m M _ hrev hMm hmz hzp]
  have key : ∀ X : ℚ, -X - a = -(X - (-a)) := fun X => by ring
  rw [key, abs_neg]
  exact hbound

/-- C5 (amended): for every calibration triple with `max ≠ zero`, `min ≠ zero`
and additionally `max ≠ min` (without which the `full_range == 0` guard of
`_position_to_angle` collapses the result to `0.0`), and every angle in
`[-180, 180]`, converting the angle to a raw position and back recovers the
angle up to one raw-unit rounding step (`90 / span` degrees, where `span` is
the raw span used for that angle's sign). -/
theorem angle_roundtrip_within_one_step (z m M : ℤ) (hM : M ≠ z) (hm : m ≠ z)
    (hMm : M ≠ m) (a : ℚ) (hlo : -180 ≤ a) (hhi : a ≤ 180) :
    |positionToAngle z m M (angleToPosition z m M a) - a|
      ≤ 90 / ((sideSpan z m M a : ℤ) : ℚ) := by
  rcases lt_trichotomy a 0 with hneg | hz | hpos
  · have hspan : sideSpan z m M a = |z - m| := by
      unfold sideSpan
      rw [if_neg (by linarith : ¬ (0 : ℚ) < a)]
    rw [hspan]
    by_cases hrev : M < m
    · have h := roundtrip_neg_rev z m M hrev hm hMm a hneg
      rwa [show |m - z| = |z - m| from abs_sub_comm m z] at h
    · exact roundtrip_down_nonrev z m M hrev hm hMm a hneg
  · subst hz
    have hspan : sideSpan z m M 0 = |z - m| := by
      unfold sideSpan
      rw [if_neg (lt_irrefl (0 : ℚ))]
    rw [hspan]
    have h1 : angleToPosition z m M 0 = z := by
      unfold angleToPosition
      rw [if_pos rfl]
    have h2 : positionToAngle z m M z = 0 := by
      unfold positionToAngle
      rw [if_pos rfl]
    rw [h1, h2]
    have h3 : |(0 : ℚ) - 0| = 0 := by norm_num
    rw [h3]
    positivity
  · have hspan : sideSpan z m M a = |M - z| := by
      unfold sideSpan
      rw [if_pos hpos]
    rw [hspan]
    by_cases hrev : M < m
    · have h := roundtrip_pos_rev z m M hrev hM hMm a hpos
      rwa [show |z - M| = |M - z| from abs_sub_comm z M] at h
    · exact roundtrip_up_nonrev z m M hrev hM hMm a hpos

/-- C5 witness: the round-trip bound applied to the concrete triple
`{zero: 2048, min: 1024, max: 3072}` at 45 degrees. -/
theorem angle_roundtrip_within_one_step_witness :
    |positionToAngle 2048 1024 3072 (angleToPosition 2048 1024 3072 45) - 45|
      ≤ 90 / ((sideSpan 2048 1024 3072 45 : ℤ) : ℚ) :=
  angle_roundtrip_within_one_step 2048 1024 3072 (by decide) (by decide)
    (by decide) 45 (by norm_num) (by norm_num)

/-- C5 counterexample: with `zero = 50`, `min = max = 100` (so `max ≠ zero`
and `min ≠ zero`, satisfying every hypothesis of the claim as stated) and
angle 45, the round trip returns `0.0`, which is 45 degrees away from the
original angle — far more than the one-step bound `90/50`. -/
theorem angle_roundtrip_fails_when_min_eq_max :
    positionToAngle 50 100 100 (angleToPosition 50 100 100 45) = 0 ∧
    ¬ (|positionToAngle 50 100 100 (angleToPosition 50 100 100 45) - 45|
        ≤ 90 / ((sideSpan 50 100 100 45 : ℤ) : ℚ)) := by
  constructor
  · norm_num [positionToAngle, angleToPosition, intTrunc]
  · norm_num [positionToAngle, angleToPosition, intTrunc, sideSpan]

/-- C6: for the calibration triple `{zero: 2048, min: 1024, max: 3072}`,
`angle_to_position(45) = 2560`, `angle_to_position(-45) = 1536`,
`position_to_angle(2560) = 45.0` and `position_to_angle(1536) = -45.0`. -/
theorem calibration_example_values :
    angleToPosition 2048 1024 3072 45 = 2560 ∧
    angleToPosition 2048 1024 3072 (-45) = 1536 ∧
    positionToAngle 2048 1024 3072 2560 = 45 ∧
    positionToAngle 2048 1024 3072 1536 = -45 := by
  refine ⟨?_, ?_, ?_, ?_⟩
  · norm_num [angleToPosition, intTrunc]
  · norm_num [angleToPosition, intTrunc]
  · norm_num [positionToAngle]
  · norm_num [positionToAngle]

/-- C9 (amended): `_position_to_angle` returns `0.0` whenever the *effective*
span of the relevant side is zero — the divisor after the min/max swap for
reversed servos (`|actual_max - zero|` above `zero`, `|zero - actual_min|`
at or below it) — so every division in it is guarded.  For a reversed triple
`max = zero` alone does not make the positive side degenerate. -/
theorem position_to_angle_zero_span_guard (z m M p : ℤ)
    (h : relevantSpan z m M p = 0) :
    positionToAngle z m M p = 0 := by
  unfold relevantSpan at h
  unfold positionToAngle
  by_cases hp : p = z
  · rw [if_pos hp]
  · rw [if_neg hp]
    by_cases hrev : M < m
    · simp only [if_pos hrev] at h ⊢
      by_cases hfull : |m - M| = 0
      · rw [if_pos hfull]
      · rw [if_neg hfull]
        by_cases hzp : z < p
        · rw [if_pos hzp] at h
          rw [if_pos hzp, if_pos h]
        · rw [if_neg hzp] at h
          rw [if_neg hzp, if_pos h]
    · simp only [if_neg hrev] at h ⊢
      by_cases hfull : |M - m| = 0
      · rw [if_pos hfull]
      · rw [if_neg hfull]
        by_cases hzp : z < p
        · rw [if_pos hzp] at h
          rw [if_pos hzp, if_pos h]
        · rw [if_neg hzp] at h
          rw [if_neg hzp, if_pos h]

/-- C9 witness: the diagonal triple `{zero: 5, min: 5, max: 9}` has a zero
negative-side span, so any position below `zero` maps to `0.0`. -/
theorem position_to_angle_zero_span_guard_witness :
    relevantSpan 5 5 9 3 = 0 ∧ positionToAngle 5 5 9 3 = 0 :=
  ⟨by norm_num [relevantSpan],
   position_to_angle_zero_span_guard 5 5 9 3 (by norm_num [relevantSpan])⟩

/-- C9 counterexample: the reversed triple `{zero: 100, min: 200, max: 100}`
has `max = zero`, yet the positive side divides by the swapped span
`|min - zero| = 100` and returns `-45.0`, not `0.0`, at position 150. -/
theorem max_eq_zero_not_guarded_when_reversed :
    positionToAngle 100 200 100 150 = -45 ∧
    ¬ positionToAngle 100 200 100 150 = 0 := by
  constructor
  · norm_num [positionToAngle]
  · norm_num [positionToAngle]

/-! ## Bus transactions, retry loop and the device state machine
(Servos.connect / disconnect / set_torque_enabled / get_positions /
set_position / set_angle / start_calibration / set_calibration_point /
end_calibration / cancel_calibration / _read / _write / _configure_servos) -/

/-- `NUM_RETRY` from the source. -/
def NUM_RETRY : Nat := 10

/-- `SCS_CONTROL_TABLE`: register name to (address, byte width). -/
def SCS_CONTROL_TABLE : List (String × Nat × Nat) :=
  [("Torque_Enable", (40, 1)),
   ("Goal_Position", (42, 2)),
   ("Present_Position", (56, 2)),
   ("Mode", (33, 1)),
   ("P_Coefficient", (21, 1)),
   ("I_Coefficient", (23, 1)),
   ("D_Coefficient", (22, 1)),
   ("Lock", (55, 1)),
   ("Maximum_Acceleration", (85, 2)),
   ("Acceleration", (41, 1))]

/-- Register-table lookup (`SCS_CONTROL_TABLE[data_name]`). -/
def tableLookup (name : String) : Option (Nat × Nat) :=
  (SCS_CONTROL_TABLE.find? (fun e => e.1 == name)).map (·.2)

/-- First attempt index (counting from 0) on which the bus reports
`COMM_SUCCESS`, scanning `fuel` attempts starting at `start`. -/
def firstSuccAux (ok : Nat → Bool) : Nat → Nat → Option Nat
  | _, 0 => none
  | start, fuel + 1 =>
    if ok start then some start else firstSuccAux ok (start + 1) fuel

/-- First successful attempt of the `for attempt in range(NUM_RETRY)` loop. -/
def firstSucc (ok : Nat → Bool) : Option Nat := firstSuccAux ok 0 NUM_RETRY

/-- How many `txPacket`/`txRxPacket` attempts the retry loop performs. -/
def attemptsMade (ok : Nat → Bool) : Nat :=
  match firstSucc ok with
  | some i => i + 1
  | none => NUM_RETRY

/-- How many `time.sleep(0.05)` pauses the retry loop performs (one after
each failed attempt except the last). -/
def sleepsMade (ok : Nat → Bool) : Nat :=
  match firstSucc ok with
  | some i => i
  | none => NUM_RETRY - 1

/-- Whether the whole transaction succeeds within the retry budget. -/
def txSucceeds (ok : Nat → Bool) : Bool := (firstSucc ok).isSome

/-- A draft/committed calibration entry: the three optional points of one
servo's `{zero, min, max}` dict. -/
structure CalEntry where
  zero : Option ℤ
  min : Option ℤ
  max : Option ℤ
deriving DecidableEq, Repr

/-- Errors raised by the engine (assertion failures, `ValueError`s,
`KeyError`s and the retries-exhausted `RuntimeError`). -/
inductive Err
  | notConnected
  | torqueDisabled
  | notCalibrated
  | notInCalibration
  | unknownServo (id : Nat)
  | invalidPointName (name : String)
  | commError
  | portOpenFailed
  | keyError
  | unknownRegister
deriving DecidableEq, Repr

/-- Observable bus/file activity of one operation.  A `tx` event summarises
one retry loop: its direction, register, target ids, payload values, number
of packet attempts, number of inter-attempt sleeps, and final outcome. -/
inductive Ev
  | tx (isWrite : Bool) (reg : String) (ids : List Nat) (vals : List ℤ)
      (attempts : Nat) (sleeps : Nat) (success : Bool)
  | sleepPause
  | fileSave
deriving DecidableEq, Repr

/-- The environment: bus oracle (`bus t j` = does attempt `j` of the `t`-th
transaction succeed), the raw positions the bus reports, whether the port
opens, and the constructor's configuration parameters. -/
structure Env where
  bus : Nat → Nat → Bool
  readVal : Nat → ℤ
  portOk : Bool
  p_coef : ℤ
  i_coef : ℤ
  d_coef : ℤ
  max_accel : ℤ
  accel : ℤ

/-- The mutable state of a `Servos` instance, plus the calibration file
(`savedFile`), a transaction counter indexing the bus oracle, and the
event log. -/
structure St where
  connected : Bool
  torque_enabled : Bool
  calibration_mode : Bool
  is_calibrated : Bool
  servo_ids : List Nat
  calibration : List (Nat × CalEntry)
  temp_calibration_data : List (Nat × CalEntry)
  savedFile : Option (List (Nat × CalEntry))
  txCount : Nat
  events : List Ev
deriving DecidableEq, Repr

/-- The `values` argument of `Servos._write`: omitted, a scalar broadcast
over all target ids, or an explicit list. -/
inductive ValArg
  | omitted
  | scalar (v : ℤ)
  | values (vs : List ℤ)
deriving DecidableEq, Repr

/-- `servo_ids = servo_ids or self.servo_ids`: Python treats both `None`
and an empty list as absent, substituting all configured ids. -/
def effIds (arg : Option (List Nat)) (s : St) : List Nat :=
  match arg with
  | none => s.servo_ids
  | some l => if l.isEmpty then s.servo_ids else l

/-- The value list actually written, after the source's broadcast of an
omitted (`[1] * len(servo_ids)`) or scalar argument. -/
def writeValues (vals : ValArg) (ids : List Nat) : List ℤ :=
  match vals with
  | .omitted => List.replicate ids.length 1
  | .scalar v => List.replicate ids.length v
  | .values vs => vs

/-- `Servos._write`: assert connected, default the id list, broadcast the
values, look up the register, run the retry loop, raise `RuntimeError` if
the budget is exhausted. -/
def Servos.write (env : Env) (dataName : String) (vals : ValArg)
    (servoIds : Option (List Nat)) (s : St) : St × Option Err :=
  if !s.connected then (s, some .notConnected)
  else
    let ids := effIds servoIds s
    match tableLookup dataName with
    | none => (s, some .unknownRegister)
    | some _ =>
      let ok := env.bus s.txCount
      let s' := { s with txCount := s.txCount + 1,
                         events := s.events ++
                           [.tx true dataName ids (writeValues vals ids)
                             (attemptsMade ok) (sleepsMade ok) (txSucceeds ok)] }
      if txSucceeds ok then (s', none) else (s', some .commError)

/-- `Servos._read`: same shape as `_write`, returning one value per
requested id on success and raising on retry exhaustion. -/
def Servos.read (env : Env) (dataName : String) (servoIds : Option (List Nat))
    (s : St) : St × Except Err (List ℤ) :=
  if !s.connected then (s, .error .notConnected)
  else
    let ids := effIds servoIds s
    match tableLookup dataName with
    | none => (s, .error .unknownRegister)
    | some _ =>
      let ok := env.bus s.txCount
      let s' := { s with txCount := s.txCount + 1,
                         events := s.events ++
                           [.tx false dataName ids []
                             (attemptsMade ok) (sleepsMade ok) (txSucceeds ok)] }
      if txSucceeds ok then (s', .ok (ids.map env.readVal))
      else (s', .error .commError)

/-- `Servos.set_torque_enabled`. -/
def Servos.set_torque_enabled (env : Env) (enabled : Bool) (s : St) :
    St × Option Err :=
  if !s.connected then (s, some .notConnected)
  else
    match Servos.write env "Torque_Enable" (.scalar (if enabled then 1 else 0))
        none s with
    | (s', some e) => (s', some e)
    | (s', none) => ({ s' with torque_enabled := enabled }, none)

/-- The per-servo configuration writes of `Servos._configure_servos`. -/
def configRegs (env : Env) : List (String × ℤ) :=
  [("Mode", 0), ("P_Coefficient", env.p_coef), ("I_Coefficient", env.i_coef),
   ("D_Coefficient", env.d_coef), ("Lock", 0),
   ("Maximum_Acceleration", env.max_accel), ("Acceleration", env.accel)]

/-- Sequence of single-id writes, stopping at the first raised error. -/
def writeSeq (env : Env) (id : Nat) : List (String × ℤ) → St → St × Option Err
  | [], s => (s, none)
  | (reg, v) :: rest, s =>
    match Servos.write env reg (.scalar v) (some [id]) s with
    | (s', some e) => (s', some e)
    | (s', none) => writeSeq env id rest s'

/-- The loop body of `Servos._configure_servos` over the servo ids. -/
def configureIds (env : Env) : List Nat → St → St × Option Err
  | [], s => (s, none)
  | id :: rest, s =>
    match writeSeq env id (configRegs env) s with
    | (s', some e) => (s', some e)
    | (s', none) => configureIds env rest s'

/-- `Servos._configure_servos`. -/
def Servos.configure_servos (env : Env) (s : St) : St × Option Err :=
  if !s.connected then (s, some .notConnected)
  else configureIds env s.servo_ids s

/-- `Servos.connect`: no-op when connected; otherwise open the port, mark
connected, configure every servo, then enable torque.  As in the source,
`self.connected` stays true when configuration raises after the port was
opened (the handler closes the port and re-raises without resetting it). -/
def Servos.connect (env : Env) (s : St) : St × Option Err :=
  if s.connected then (s, none)
  else if !env.portOk then (s, some .portOpenFailed)
  else
    let s1 := { s with connected := true }
    match Servos.configure_servos env s1 with
    | (s2, some e) => (s2, some e)
    | (s2, none) => Servos.set_torque_enabled env true s2

/-- `Servos.disconnect`: no-op when not connected; disables torque first if
it is on (a raised write error propagates before the port is closed), then
pauses and closes. -/
def Servos.disconnect (env : Env) (s : St) : St × Option Err :=
  if !s.connected then (s, none)
  else
    match (if s.torque_enabled then Servos.set_torque_enabled env false s
           else (s, none)) with
    | (s', some e) => (s', some e)
    | (s', none) =>
      ({ s' with connected := false, events := s'.events ++ [.sleepPause] }, none)

/-- `Servos.get_positions`: reads `Present_Position` for all configured ids
and pairs them up. -/
def Servos.get_positions (env : Env) (s : St) : St × Except Err (List (Nat × ℤ)) :=
  if !s.connected then (s, .error .notConnected)
  else
    match Servos.read env "Present_Position" (some s.servo_ids) s with
    | (s', .error e) => (s', .error e)
    | (s', .ok vs) => (s', .ok (s.servo_ids.zip vs))

/-- First id in the map that is not a configured servo id (the loop in
`set_position` raises `ValueError` at it). -/
def firstUnknown (known : List Nat) : List (Nat × ℤ) → Option Nat
  | [] => none
  | (id, _) :: rest =>
    if known.contains id then firstUnknown known rest else some id

/-- `Servos.set_position`. -/
def Servos.set_position (env : Env) (positions : List (Nat × ℤ)) (s : St) :
    St × Option Err :=
  if !s.connected then (s, some .notConnected)
  else if !s.torque_enabled then (s, some .torqueDisabled)
  else
    match firstUnknown s.servo_ids positions with
    | some id => (s, some (.unknownServo id))
    | none =>
      if positions.isEmpty then (s, none)
      else
        Servos.write env "Goal_Position" (.values (positions.map (·.2)))
          (some (positions.map (·.1))) s

/-- `self.calibration[str(servo_id)]` / draft lookup. -/
def calLookup (cal : List (Nat × CalEntry)) (id : Nat) : Option CalEntry :=
  (cal.find? (fun e => e.1 == id)).map (·.2)

/-- The `['zero'] / ['min'] / ['max']` fetches of the conversion helpers;
`none` models a `KeyError`. -/
def entryTriple (e : CalEntry) : Option (ℤ × ℤ × ℤ) :=
  match e.zero, e.min, e.max with
  | some z, some mn, some mx => some (z, mn, mx)
  | _, _, _ => none

/-- `Servos._angle_to_position` at the instance level: look up the servo's
committed triple and convert. -/
def Servos.angle_to_position (s : St) (id : Nat) (angle : ℚ) : Except Err ℤ :=
  if !s.is_calibrated then .error .notCalibrated
  else
    match calLookup s.calibration id with
    | none => .error .keyError
    | some e =>
      match entryTriple e with
      | none => .error .keyError
      | some (z, mn, mx) => .ok (angleToPosition z mn mx angle)

/-- The conversion loop of `Servos.set_angle`: each id is checked against
the configured set before being converted, in order. -/
def anglesToPositions (s : St) : List (Nat × ℚ) → Except Err (List (Nat × ℤ))
  | [] => .ok []
  | (id, a) :: rest =>
    if s.servo_ids.contains id then
      match Servos.angle_to_position s id a with
      | .error e => .error e
      | .ok p =>
        match anglesToPositions s rest with
        | .error e => .error e
        | .ok ps => .ok ((id, p) :: ps)
    else .error (.unknownServo id)

/-- `Servos.set_angle`. -/
def Servos.set_angle (env : Env) (angles : List (Nat × ℚ)) (s : St) :
    St × Option Err :=
  if !s.connected then (s, some .notConnected)
  else if !s.torque_enabled then (s, some .torqueDisabled)
  else if !s.is_calibrated then (s, some .notCalibrated)
  else
    match anglesToPositions s angles with
    | .error e => (s, some e)
    | .ok ps =>
      if ps.isEmpty then (s, none) else Servos.set_position env ps s

/-- `Servos.start_calibration`: requires connected; warning no-op when
already in progress; otherwise clears the draft, enters calibration mode
and force-disables torque (whose write can raise). -/
def startCalSt (s : St) : St :=
  { s with temp_calibration_data := [], calibration_mode := true }

def Servos.start_calibration (env : Env) (s : St) : St × Option Err :=
  if !s.connected then (s, some .notConnected)
  else if s.calibration_mode then (s, none)
  else
    if (startCalSt s).torque_enabled then
      Servos.set_torque_enabled env false (startCalSt s)
    else (startCalSt s, none)

/-- Write one point into a draft entry. -/
def updateEntry (e : CalEntry) (point : String) (v : ℤ) : CalEntry :=
  if point == "zero" then { e with zero := some v }
  else if point == "min" then { e with min := some v }
  else { e with max := some v }

/-- `self.temp_calibration_data.setdefault(str(servo_id), {})[point] = v`. -/
def draftInsert (d : List (Nat × CalEntry)) (id : Nat) (point : String)
    (v : ℤ) : List (Nat × CalEntry) :=
  match d with
  | [] => [(id, updateEntry ⟨none, none, none⟩ point v)]
  | (k, e) :: rest =>
    if k = id then (k, updateEntry e point v) :: rest
    else (k, e) :: draftInsert rest id point v

/-- `Servos.set_calibration_point`. -/
def Servos.set_calibration_point (env : Env) (id : Nat) (point : String)
    (pos : Option ℤ) (s : St) : St × Option Err :=
  if !s.connected then (s, some .notConnected)
  else if !s.calibration_mode then (s, some .notInCalibration)
  else if !s.servo_ids.contains id then (s, some (.unknownServo id))
  else if !(point == "zero" || point == "min" || point == "max") then
    (s, some (.invalidPointName point))
  else
    match pos with
    | some v =>
      ({ s with temp_calibration_data :=
          draftInsert s.temp_calibration_data id point v }, none)
    | none =>
      match Servos.get_positions env s with
      | (s', .error e) => (s', some e)
      | (s', .ok posList) =>
        match (posList.find? (fun e => e.1 == id)).map (·.2) with
        | none => (s', some .keyError)
        | some v =>
          ({ s' with temp_calibration_data :=
              draftInsert s'.temp_calibration_data id point v }, none)

/-- The points of `['zero', 'min', 'max']` a draft entry is missing, in the
order the validation loop checks them. -/
def entryMissing (e : CalEntry) : List String :=
  (if e.zero.isNone then ["zero"] else []) ++
  (if e.min.isNone then ["min"] else []) ++
  (if e.max.isNone then ["max"] else [])

/-- The required points missing for one configured servo (all three when the
servo has no draft entry at all). -/
def servoMissing (s : St) (id : Nat) : List String :=
  match calLookup s.temp_calibration_data id with
  | none => ["zero", "min", "max"]
  | some e => entryMissing e

/-- The `missing_points` map accumulated by `end_calibration`'s validation
loop over the configured servo ids. -/
def missingPoints (s : St) : List (Nat × List String) :=
  s.servo_ids.filterMap (fun id =>
    if (servoMissing s id).isEmpty then none else some (id, servoMissing s id))

/-- The observable outcome of `Servos.end_calibration`: a raised error, the
empty-draft "nothing to save" return, the incomplete-calibration report, or
a committed save. -/
inductive EndOutcome
  | err (e : Err)
  | nothingToSave
  | incomplete (missing : List (Nat × List String))
  | saved
deriving DecidableEq, Repr

/-- Whether an outcome is the incomplete-calibration report. -/
def EndOutcome.isIncomplete : EndOutcome → Bool
  | .incomplete _ => true
  | _ => false

/-- The state after the commit steps of `end_calibration` (copy the draft
into the committed set, persist it, leave calibration mode, clear the draft,
reload from the just-written file) but before torque is re-enabled. -/
def endCalibSaveSt (s : St) : St :=
  { s with
    calibration := s.temp_calibration_data,
    is_calibrated := !s.temp_calibration_data.isEmpty,
    savedFile := some s.temp_calibration_data,
    events := s.events ++ [.fileSave],
    calibration_mode := false,
    temp_calibration_data := [] }

/-- `Servos.end_calibration`: asserts calibration mode; empty draft exits
calibration mode without saving; a draft missing points for any configured
servo exits calibration mode without committing; a complete draft replaces
the committed set, is persisted, is reloaded from the file, and torque is
re-enabled. -/
def Servos.end_calibration (env : Env) (s : St) : St × EndOutcome :=
  if !s.calibration_mode then (s, .err .notInCalibration)
  else if s.temp_calibration_data.isEmpty then
    ({ s with calibration_mode := false }, .nothingToSave)
  else if !(missingPoints s).isEmpty then
    ({ s with calibration_mode := false }, .incomplete (missingPoints s))
  else
    match Servos.set_torque_enabled env true (endCalibSaveSt s) with
    | (s2, some e) => (s2, .err e)
    | (s2, none) => (s2, .saved)

/-- `Servos.cancel_calibration`: no-op warning when not in calibration mode;
otherwise discards the draft, leaves calibration mode and re-enables torque
(whose write can raise). -/
def cancelCalSt (s : St) : St :=
  { s with temp_calibration_data := [], calibration_mode := false }

def Servos.cancel_calibration (env : Env) (s : St) : St × Option Err :=
  if !s.calibration_mode then (s, none)
  else Servos.set_torque_enabled env true (cancelCalSt s)

/-- The state `Servos.__init__` builds: disconnected, torque off, not in
calibration mode, committed set loaded from the calibration file and
`is_calibrated = bool(calibration)`. -/
def initSt (ids : List Nat) (file : Option (List (Nat × CalEntry))) : St :=
  { connected := false,
    torque_enabled := false,
    calibration_mode := false,
    is_calibrated := !(file.getD []).isEmpty,
    servo_ids := ids,
    calibration := file.getD [],
    temp_calibration_data := [],
    savedFile := file,
    txCount := 0,
    events := [] }

/-- The device-state invariant of the spec: torque only when connected, and
no torque while calibration is in progress. -/
def StInv (s : St) : Prop :=
  (s.torque_enabled = true → s.connected = true) ∧
  (s.calibration_mode = true → s.torque_enabled = false)

/-- The first half of the invariant on its own. -/
def StInvTorque (s : St) : Prop := s.torque_enabled = true → s.connected = true

instance (s : St) : Decidable (StInv s) := by
  unfold StInv
  infer_instance

instance (s : St) : Decidable (StInvTorque s) := by
  unfold StInvTorque
  infer_instance

/-! ## Helper lemmas about the state machine -/

/-- Two states that agree on everything except the transaction counter and
the event log. -/
def quietEq (s s' : St) : Prop :=
  s'.connected = s.connected ∧ s'.torque_enabled = s.torque_enabled ∧
  s'.calibration_mode = s.calibration_mode ∧
  s'.is_calibrated = s.is_calibrated ∧
  s'.calibration = s.calibration ∧
  s'.temp_calibration_data = s.temp_calibration_data ∧
  s'.savedFile = s.savedFile

lemma quietEq_refl (s : St) : quietEq s s :=
  ⟨rfl, rfl, rfl, rfl, rfl, rfl, rfl⟩

lemma quietEq_trans {s s' s'' : St} (h1 : quietEq s s') (h2 : quietEq s' s'') :
    quietEq s s'' := by
  obtain ⟨a1, a2, a3, a4, a5, a6, a7⟩ := h1
  obtain ⟨b1, b2, b3, b4, b5, b6, b7⟩ := h2
  exact ⟨b1.trans a1, b2.trans a2, b3.trans a3, b4.trans a4, b5.trans a5,
    b6.trans a6, b7.trans a7⟩

lemma write_quiet (env : Env) (n : String) (v : ValArg)
    (ids : Option (List Nat)) (s : St) :
    quietEq s (Servos.write env n v ids s).1 := by
  unfold Servos.write
  split
  · exact quietEq_refl s
  · split
    · exact quietEq_refl s
    · dsimp only
      split
      · exact ⟨rfl, rfl, rfl, rfl, rfl, rfl, rfl⟩
      · exact ⟨rfl, rfl, rfl, rfl, rfl, rfl, rfl⟩

lemma read_quiet (env : Env) (n : String) (ids : Option (List Nat)) (s : St) :
    quietEq s (Servos.read env n ids s).1 := by
  unfold Servos.read
  split
  · exact quietEq_refl s
  · split
    · exact quietEq_refl s
    · dsimp only
      split
      · exact ⟨rfl, rfl, rfl, rfl, rfl, rfl, rfl⟩
      · exact ⟨rfl, rfl, rfl, rfl, rfl, rfl, rfl⟩

lemma get_positions_quiet (env : Env) (s : St) :
    quietEq s (Servos.get_positions env s).1 := by
  unfold Servos.get_positions
  split
  · exact quietEq_refl s
  · split
    · rename_i s' e heq
      have h := read_quiet env "Present_Position" (some s.servo_ids) s
      rw [heq] at h
      exact h
    · rename_i s' vs heq
      have h := read_quiet env "Present_Position" (some s.servo_ids) s
      rw [heq] at h
      exact h

/-- `set_torque_enabled` changes nothing except possibly `torque_enabled`
(and the transaction log). -/
lemma set_torque_shape (env : Env) (e : Bool) (s : St) :
    (Servos.set_torque_enabled env e s).1.connected = s.connected ∧
    (Servos.set_torque_enabled env e s).1.calibration_mode = s.calibration_mode ∧
    (Servos.set_torque_enabled env e s).1.is_calibrated = s.is_calibrated ∧
    (Servos.set_torque_enabled env e s).1.calibration = s.calibration ∧
    (Servos.set_torque_enabled env e s).1.temp_calibration_data
      = s.temp_calibration_data ∧
    (Servos.set_torque_enabled env e s).1.savedFile = s.savedFile ∧
    ((Servos.set_torque_enabled env e s).1.torque_enabled = s.torque_enabled ∨
      ((Servos.set_torque_enabled env e s).1.torque_enabled = e ∧
        s.connected = true)) := by
  unfold Servos.set_torque_enabled
  split
  · rename_i hc
    exact ⟨rfl, rfl, rfl, rfl, rfl, rfl, Or.inl rfl⟩
  · rename_i hc
    have hconn : s.connected = true := by
      by_cases h : s.connected = true
      · exact h
      · exfalso
        apply hc
        simp [h]
    split
    · rename_i s' e' heq
      have h := write_quiet env "Torque_Enable"
        (.scalar (if e then 1 else 0)) none s
      rw [heq] at h
      obtain ⟨a1, a2, a3, a4, a5, a6, a7⟩ := h
      exact ⟨a1, a3, a4, a5, a6, a7, Or.inl a2⟩
    · rename_i s' heq
      have h := write_quiet env "Torque_Enable"
        (.scalar (if e then 1 else 0)) none s
      rw [heq] at h
      obtain ⟨a1, a2, a3, a4, a5, a6, a7⟩ := h
      exact ⟨a1, a3, a4, a5, a6, a7, Or.inr ⟨rfl, hconn⟩⟩

/-- A raised (error) `set_torque_enabled` leaves `torque_enabled` as it was. -/
lemma set_torque_err_torque (env : Env) (e : Bool) (s : St)
    (h : (Servos.set_torque_enabled env e s).2.isSome) :
    (Servos.set_torque_enabled env e s).1.torque_enabled = s.torque_enabled := by
  unfold Servos.set_torque_enabled at h ⊢
  by_cases hc : (!s.connected) = true
  · rw [if_pos hc] at h ⊢
  · rw [if_neg hc] at h ⊢
    rcases heq : Servos.write env "Torque_Enable"
        (ValArg.scalar (if e then 1 else 0)) none s with ⟨s', e'⟩
    have hq := write_quiet env "Torque_Enable"
      (ValArg.scalar (if e then 1 else 0)) none s
    rw [heq] at hq h
    cases e' with
    | some err => exact hq.2.1
    | none => exact Bool.noConfusion h

/-- A successful `set_torque_enabled` sets `torque_enabled` to the argument. -/
lemma set_torque_ok_torque (env : Env) (e : Bool) (s : St)
    (h : (Servos.set_torque_enabled env e s).2 = none) :
    (Servos.set_torque_enabled env e s).1.torque_enabled = e := by
  unfold Servos.set_torque_enabled at h ⊢
  by_cases hc : (!s.connected) = true
  · rw [if_pos hc] at h ⊢
    cases h
  · rw [if_neg hc] at h ⊢
    rcases heq : Servos.write env "Torque_Enable"
        (ValArg.scalar (if e then 1 else 0)) none s with ⟨s', e'⟩
    rw [heq] at h
    cases e' with
    | some err => cases h
    | none => rfl

/-- The event log only ever grows: `s'` extends `s`. -/
def evPrefix (s s' : St) : Prop := ∃ t, s'.events = s.events ++ t

lemma evPrefix_refl (s : St) : evPrefix s s := ⟨[], by simp⟩

lemma evPrefix_trans {s s' s'' : St} (h1 : evPrefix s s') (h2 : evPrefix s' s'') :
    evPrefix s s'' := by
  obtain ⟨t1, ht1⟩ := h1
  obtain ⟨t2, ht2⟩ := h2
  exact ⟨t1 ++ t2, by rw [ht2, ht1, List.append_assoc]⟩

lemma write_evPrefix (env : Env) (n : String) (v : ValArg)
    (ids : Option (List Nat)) (s : St) :
    evPrefix s (Servos.write env n v ids s).1 := by
  unfold Servos.write
  split
  · exact evPrefix_refl s
  · split
    · exact evPrefix_refl s
    · dsimp only
      split
      · exact ⟨_, rfl⟩
      · exact ⟨_, rfl⟩

lemma read_evPrefix (env : Env) (n : String) (ids : Option (List Nat)) (s : St) :
    evPrefix s (Servos.read env n ids s).1 := by
  unfold Servos.read
  split
  · exact evPrefix_refl s
  · split
    · exact evPrefix_refl s
    · dsimp only
      split
      · exact ⟨_, rfl⟩
      · exact ⟨_, rfl⟩

lemma set_torque_evPrefix (env : Env) (e : Bool) (s : St) :
    evPrefix s (Servos.set_torque_enabled env e s).1 := by
  unfold Servos.set_torque_enabled
  split
  · exact evPrefix_refl s
  · rcases heq : Servos.write env "Torque_Enable"
        (ValArg.scalar (if e then 1 else 0)) none s with ⟨s', e'⟩
    have hp := write_evPrefix env "Torque_Enable"
      (ValArg.scalar (if e then 1 else 0)) none s
    rw [heq] at hp
    cases e' with
    | some err => exact hp
    | none => exact hp

/-- A write that raised no error recorded a successful write transaction for
its register and effective id list. -/
lemma write_ok_event (env : Env) (n : String) (v : ValArg)
    (ids : Option (List Nat)) (s : St)
    (h : (Servos.write env n v ids s).2 = none) :
    Ev.tx true n (effIds ids s) (writeValues v (effIds ids s))
      (attemptsMade (env.bus s.txCount)) (sleepsMade (env.bus s.txCount)) true
      ∈ (Servos.write env n v ids s).1.events := by
  unfold Servos.write at h ⊢
  by_cases hc : (!s.connected) = true
  · rw [if_pos hc] at h
    cases h
  · rw [if_neg hc] at h ⊢
    rcases hl : tableLookup n with _ | v2
    · rw [hl] at h
      cases h
    · rw [hl] at h
      dsimp only at h ⊢
      by_cases hs : txSucceeds (env.bus s.txCount) = true
      · rw [if_pos hs] at h ⊢
        dsimp only
        rw [hs]
        exact List.mem_append_right _ (List.mem_singleton.mpr rfl)
      · rw [if_neg hs] at h
        cases h

/-- Is this event a successful write transaction to `reg` over `ids`? -/
def Ev.isWriteTo : Ev → String → List Nat → Bool
  | .tx w r i _ _ _ succ, reg, ids => w && (r == reg) && (i == ids) && succ
  | _, _, _ => false

/-- Does the log contain a successful write transaction to `reg` over `ids`? -/
def hasWriteTo (evs : List Ev) (reg : String) (ids : List Nat) : Bool :=
  evs.any (fun ev => ev.isWriteTo reg ids)

lemma hasWriteTo_mono {s s' : St} (h : evPrefix s s') {reg : String}
    {ids : List Nat} (hh : hasWriteTo s.events reg ids = true) :
    hasWriteTo s'.events reg ids = true := by
  obtain ⟨t, ht⟩ := h
  unfold hasWriteTo at hh ⊢
  rw [ht, List.any_append, hh]
  rfl

lemma write_ok_hasWriteTo (env : Env) (n : String) (v : ValArg)
    (ids : Option (List Nat)) (s : St)
    (h : (Servos.write env n v ids s).2 = none) :
    hasWriteTo (Servos.write env n v ids s).1.events n (effIds ids s) = true := by
  have hm := write_ok_event env n v ids s h
  unfold hasWriteTo
  rw [List.any_eq_true]
  refine ⟨_, hm, ?_⟩
  simp [Ev.isWriteTo]

lemma writeSeq_quiet (env : Env) (id : Nat) (regs : List (String × ℤ))
    (s : St) : quietEq s (writeSeq env id regs s).1 := by
  induction regs generalizing s with
  | nil => exact quietEq_refl s
  | cons hd tl ih =>
    unfold writeSeq
    rcases heq : Servos.write env hd.1 (.scalar hd.2) (some [id]) s with ⟨s', e'⟩
    have hq := write_quiet env hd.1 (.scalar hd.2) (some [id]) s
    rw [heq] at hq
    cases e' with
    | some err => exact hq
    | none => exact quietEq_trans hq (ih s')

lemma writeSeq_evPrefix (env : Env) (id : Nat) (regs : List (String × ℤ))
    (s : St) : evPrefix s (writeSeq env id regs s).1 := by
  induction regs generalizing s with
  | nil => exact evPrefix_refl s
  | cons hd tl ih =>
    unfold writeSeq
    rcases heq : Servos.write env hd.1 (.scalar hd.2) (some [id]) s with ⟨s', e'⟩
    have hp := write_evPrefix env hd.1 (.scalar hd.2) (some [id]) s
    rw [heq] at hp
    cases e' with
    | some err => exact hp
    | none => exact evPrefix_trans hp (ih s')

lemma writeSeq_ok (env : Env) (id : Nat) (regs : List (String × ℤ)) (s : St)
    (h : (writeSeq env id regs s).2 = none) :
    ∀ rv ∈ regs, hasWriteTo (writeSeq env id regs s).1.events rv.1 [id] = true := by
  induction regs generalizing s with
  | nil =>
    intro rv hrv
    cases hrv
  | cons hd tl ih =>
    intro rv hrv
    unfold writeSeq at h ⊢
    rcases heq : Servos.write env hd.1 (.scalar hd.2) (some [id]) s with ⟨s', e'⟩
    rw [heq] at h
    cases e' with
    | some err => cases h
    | none =>
      rcases List.mem_cons.mp hrv with hrv1 | hrv2
      · have h1 : hasWriteTo s'.events hd.1 [id] = true := by
          have hw := write_ok_hasWriteTo env hd.1 (.scalar hd.2) (some [id]) s
            (by rw [heq])
          rw [heq] at hw
          exact hw
        have hp := writeSeq_evPrefix env id tl s'
        rw [hrv1]
        exact hasWriteTo_mono hp h1
      · exact ih s' h rv hrv2

lemma configureIds_quiet (env : Env) (ids : List Nat) (s : St) :
    quietEq s (configureIds env ids s).1 := by
  induction ids generalizing s with
  | nil => exact quietEq_refl s
  | cons hd tl ih =>
    unfold configureIds
    rcases heq : writeSeq env hd (configRegs env) s with ⟨s', e'⟩
    have hq := writeSeq_quiet env hd (configRegs env) s
    rw [heq] at hq
    cases e' with
    | some err => exact hq
    | none => exact quietEq_trans hq (ih s')

lemma configureIds_evPrefix (env : Env) (ids : List Nat) (s : St) :
    evPrefix s (configureIds env ids s).1 := by
  induction ids generalizing s with
  | nil => exact evPrefix_refl s
  | cons hd tl ih =>
    unfold configureIds
    rcases heq : writeSeq env hd (configRegs env) s with ⟨s', e'⟩
    have hp := writeSeq_evPrefix env hd (configRegs env) s
    rw [heq] at hp
    cases e' with
    | some err => exact hp
    | none => exact evPrefix_trans hp (ih s')

lemma configureIds_ok (env : Env) (ids : List Nat) (s : St)
    (h : (configureIds env ids s).2 = none) :
    ∀ id ∈ ids, ∀ rv ∈ configRegs env,
      hasWriteTo (configureIds env ids s).1.events rv.1 [id] = true := by
  induction ids generalizing s with
  | nil =>
    intro id hid
    cases hid
  | cons hd tl ih =>
    intro id hid rv hrv
    unfold configureIds at h ⊢
    rcases heq : writeSeq env hd (configRegs env) s with ⟨s', e'⟩
    rw [heq] at h
    cases e' with
    | some err => cases h
    | none =>
      rcases List.mem_cons.mp hid with hid1 | hid2
      · have h1 : hasWriteTo s'.events rv.1 [hd] = true := by
          have hw := writeSeq_ok env hd (configRegs env) s (by rw [heq]) rv hrv
          rw [heq] at hw
          exact hw
        have hp := configureIds_evPrefix env tl s'
        rw [hid1]
        exact hasWriteTo_mono hp h1
      · exact ih s' h id hid2 rv hrv

lemma configure_quiet (env : Env) (s : St) :
    quietEq s (Servos.configure_servos env s).1 := by
  unfold Servos.configure_servos
  split
  · exact quietEq_refl s
  · exact configureIds_quiet env s.servo_ids s

/-- All the configuration registers of `_configure_servos` were successfully
written, one id at a time, according to the event log. -/
def configWritesDone (env : Env) (evs : List Ev) (ids : List Nat) : Bool :=
  ids.all (fun id => (configRegs env).all (fun rv => hasWriteTo evs rv.1 [id]))

lemma connect_noop (env : Env) (s : St) (hc : s.connected = true) :
    Servos.connect env s = (s, none) := by
  unfold Servos.connect
  rw [if_pos hc]

lemma connect_ok (env : Env) (s : St) (hc : s.connected = false)
    (h : (Servos.connect env s).2 = none) :
    (Servos.connect env s).1.connected = true ∧
    (Servos.connect env s).1.torque_enabled = true ∧
    configWritesDone env (Servos.connect env s).1.events s.servo_ids = true := by
  unfold Servos.connect at h ⊢
  rw [if_neg (by simp [hc])] at h ⊢
  by_cases hp : (!env.portOk) = true
  · rw [if_pos hp] at h
    cases h
  · rw [if_neg hp] at h ⊢
    dsimp only at h ⊢
    rcases hcfg : Servos.configure_servos env { s with connected := true }
      with ⟨s2, e2⟩
    rw [hcfg] at h
    cases e2 with
    | some err => cases h
    | none =>
      have hq2 := configure_quiet env { s with connected := true }
      rw [hcfg] at hq2
      have hconn2 : s2.connected = true := hq2.1
      have hshape := set_torque_shape env true s2
      refine ⟨?_, ?_, ?_⟩
      · rw [hshape.1, hconn2]
      · exact set_torque_ok_torque env true s2 h
      · have hcfg_ids : Servos.configure_servos env { s with connected := true }
            = configureIds env s.servo_ids { s with connected := true } := by
          unfold Servos.configure_servos
          rw [if_neg (by simp)]
        have hok := configureIds_ok env s.servo_ids { s with connected := true }
          (by rw [← hcfg_ids, hcfg])
        rw [← hcfg_ids, hcfg] at hok
        have hpre := set_torque_evPrefix env true s2
        unfold configWritesDone
        rw [List.all_eq_true]
        intro id hid
        rw [List.all_eq_true]
        intro rv hrv
        exact hasWriteTo_mono hpre (hok id hid rv hrv)

lemma quiet_invT {s s' : St} (h : quietEq s s') (hi : StInvTorque s) :
    StInvTorque s' := by
  intro ht
  rw [h.2.1] at ht
  rw [h.1]
  exact hi ht

lemma quiet_inv {s s' : St} (h : quietEq s s') (hi : StInv s) : StInv s' := by
  constructor
  · exact quiet_invT h hi.1
  · intro hcm
    rw [h.2.2.1] at hcm
    rw [h.2.1]
    exact hi.2 hcm

lemma write_ok_of (env : Env) (n : String) (v : ValArg)
    (ids : Option (List Nat)) (s : St)
    (hb : txSucceeds (env.bus s.txCount) = true) (hc : s.connected = true)
    (hl : (tableLookup n).isSome = true) :
    (Servos.write env n v ids s).2 = none := by
  unfold Servos.write
  rw [if_neg (by simp [hc])]
  rcases hlk : tableLookup n with _ | v2
  · rw [hlk] at hl
    cases hl
  · dsimp only
    rw [if_pos hb]

lemma set_torque_ok_of (env : Env) (e : Bool) (s : St)
    (hb : ∀ t, txSucceeds (env.bus t) = true) (hc : s.connected = true) :
    (Servos.set_torque_enabled env e s).2 = none := by
  unfold Servos.set_torque_enabled
  rw [if_neg (by simp [hc])]
  rcases heq : Servos.write env "Torque_Enable"
      (ValArg.scalar (if e then 1 else 0)) none s with ⟨s', e'⟩
  have hw := write_ok_of env "Torque_Enable"
    (ValArg.scalar (if e then 1 else 0)) none s (hb s.txCount) hc (by rfl)
  rw [heq] at hw
  cases e' with
  | some err => cases hw
  | none => rfl

lemma set_position_quiet (env : Env) (ps : List (Nat × ℤ)) (s : St) :
    quietEq s (Servos.set_position env ps s).1 := by
  unfold Servos.set_position
  split
  · exact quietEq_refl s
  · split
    · exact quietEq_refl s
    · split
      · exact quietEq_refl s
      · split
        · exact quietEq_refl s
        · exact write_quiet env "Goal_Position" (.values (ps.map (·.2)))
            (some (ps.map (·.1))) s

lemma set_angle_quiet (env : Env) (as' : List (Nat × ℚ)) (s : St) :
    quietEq s (Servos.set_angle env as' s).1 := by
  unfold Servos.set_angle
  split
  · exact quietEq_refl s
  · split
    · exact quietEq_refl s
    · split
      · exact quietEq_refl s
      · split
        · exact quietEq_refl s
        · split
          · exact quietEq_refl s
          · exact set_position_quiet env _ s

lemma set_cal_point_flags (env : Env) (id : Nat) (point : String)
    (pos : Option ℤ) (s : St) :
    (Servos.set_calibration_point env id point pos s).1.connected = s.connected ∧
    (Servos.set_calibration_point env id point pos s).1.torque_enabled
      = s.torque_enabled ∧
    (Servos.set_calibration_point env id point pos s).1.calibration_mode
      = s.calibration_mode ∧
    (Servos.set_calibration_point env id point pos s).1.calibration
      = s.calibration ∧
    (Servos.set_calibration_point env id point pos s).1.is_calibrated
      = s.is_calibrated ∧
    (Servos.set_calibration_point env id point pos s).1.savedFile
      = s.savedFile := by
  unfold Servos.set_calibration_point
  split
  · exact ⟨rfl, rfl, rfl, rfl, rfl, rfl⟩
  · split
    · exact ⟨rfl, rfl, rfl, rfl, rfl, rfl⟩
    · split
      · exact ⟨rfl, rfl, rfl, rfl, rfl, rfl⟩
      · split
        · exact ⟨rfl, rfl, rfl, rfl, rfl, rfl⟩
        · split
          · exact ⟨rfl, rfl, rfl, rfl, rfl, rfl⟩
          · split
            · rename_i s' e heq
              have hq := get_positions_quiet env s
              rw [heq] at hq
              exact ⟨hq.1, hq.2.1, hq.2.2.1, hq.2.2.2.2.1, hq.2.2.2.1, hq.2.2.2.2.2.2⟩
            · rename_i s' posList heq
              have hq := get_positions_quiet env s
              rw [heq] at hq
              split
              · exact ⟨hq.1, hq.2.1, hq.2.2.1, hq.2.2.2.2.1, hq.2.2.2.1,
                  hq.2.2.2.2.2.2⟩
              · exact ⟨hq.1, hq.2.1, hq.2.2.1, hq.2.2.2.2.1, hq.2.2.2.1,
                  hq.2.2.2.2.2.2⟩

lemma invT_set_torque (env : Env) (e : Bool) (s : St) (hi : StInvTorque s) :
    StInvTorque (Servos.set_torque_enabled env e s).1 := by
  have hsh := set_torque_shape env e s
  intro ht
  rw [hsh.1]
  rcases hsh.2.2.2.2.2.2 with h1 | h2
  · rw [h1] at ht
    exact hi ht
  · exact h2.2

lemma invT_connect (env : Env) (s : St) (hi : StInvTorque s) :
    StInvTorque (Servos.connect env s).1 := by
  by_cases hc : s.connected = true
  · rw [connect_noop env s hc]
    exact hi
  · unfold Servos.connect
    rw [if_neg hc]
    by_cases hp : (!env.portOk) = true
    · rw [if_pos hp]
      exact hi
    · rw [if_neg hp]
      dsimp only
      rcases hcfg : Servos.configure_servos env { s with connected := true }
        with ⟨s2, e2⟩
      have hq2 := configure_quiet env { s with connected := true }
      rw [hcfg] at hq2
      cases e2 with
      | some err =>
        intro _
        exact hq2.1
      | none =>
        intro _
        rw [(set_torque_shape env true s2).1]
        exact hq2.1

lemma invT_disconnect (env : Env) (s : St) (hi : StInvTorque s) :
    StInvTorque (Servos.disconnect env s).1 := by
  unfold Servos.disconnect
  by_cases hc : (!s.connected) = true
  · rw [if_pos hc]
    exact hi
  · rw [if_neg hc]
    by_cases htq : s.torque_enabled = true
    · rw [if_pos htq]
      rcases heq : Servos.set_torque_enabled env false s with ⟨s', e'⟩
      have hsh := set_torque_shape env false s
      rw [heq] at hsh
      cases e' with
      | some err =>
        intro ht
        rw [hsh.1]
        rcases hsh.2.2.2.2.2.2 with h1 | h2
        · rw [h1] at ht
          exact hi ht
        · rw [h2.1] at ht
          cases ht
      | none =>
        have hok := set_torque_ok_torque env false s (by rw [heq])
        rw [heq] at hok
        intro ht
        have ht' : s'.torque_enabled = true := ht
        rw [hok] at ht'
        cases ht'
    · rw [if_neg htq]
      dsimp only
      intro ht
      exact absurd ht htq

lemma invT_start_calibration (env : Env) (s : St) (hi : StInvTorque s) :
    StInvTorque (Servos.start_calibration env s).1 := by
  unfold Servos.start_calibration
  split
  · exact hi
  · split
    · exact hi
    · split
      · apply invT_set_torque
        intro ht
        exact hi ht
      · intro ht
        exact hi ht

lemma invT_set_calibration_point (env : Env) (id : Nat) (point : String)
    (pos : Option ℤ) (s : St) (hi : StInvTorque s) :
    StInvTorque (Servos.set_calibration_point env id point pos s).1 := by
  have hf := set_cal_point_flags env id point pos s
  intro ht
  rw [hf.2.1] at ht
  rw [hf.1]
  exact hi ht

lemma invT_end_calibration (env : Env) (s : St) (hi : StInvTorque s) :
    StInvTorque (Servos.end_calibration env s).1 := by
  unfold Servos.end_calibration
  split
  · exact hi
  · split
    · intro ht
      exact hi ht
    · split
      · intro ht
        exact hi ht
      · rcases heq : Servos.set_torque_enabled env true (endCalibSaveSt s)
          with ⟨s2, e2⟩
        have hres : StInvTorque s2 := by
          have h := invT_set_torque env true (endCalibSaveSt s)
            (fun ht => hi ht)
          rw [heq] at h
          exact h
        cases e2 with
        | some err => exact hres
        | none => exact hres

lemma invT_cancel_calibration (env : Env) (s : St) (hi : StInvTorque s) :
    StInvTorque (Servos.cancel_calibration env s).1 := by
  unfold Servos.cancel_calibration
  split
  · exact hi
  · apply invT_set_torque
    intro ht
    exact hi ht

lemma invT_set_position (env : Env) (ps : List (Nat × ℤ)) (s : St)
    (hi : StInvTorque s) : StInvTorque (Servos.set_position env ps s).1 :=
  quiet_invT (set_position_quiet env ps s) hi

lemma invT_set_angle (env : Env) (as' : List (Nat × ℚ)) (s : St)
    (hi : StInvTorque s) : StInvTorque (Servos.set_angle env as' s).1 :=
  quiet_invT (set_angle_quiet env as' s) hi

lemma inv_set_torque_false (env : Env) (s : St) (hi : StInv s) :
    StInv (Servos.set_torque_enabled env false s).1 := by
  refine ⟨invT_set_torque env false s hi.1, ?_⟩
  have hsh := set_torque_shape env false s
  intro hcm
  rw [hsh.2.1] at hcm
  rcases hsh.2.2.2.2.2.2 with h1 | h2
  · rw [h1]
    exact hi.2 hcm
  · exact h2.1

lemma inv_disconnect (env : Env) (s : St) (hi : StInv s) :
    StInv (Servos.disconnect env s).1 := by
  refine ⟨invT_disconnect env s hi.1, ?_⟩
  unfold Servos.disconnect
  by_cases hc : (!s.connected) = true
  · rw [if_pos hc]
    exact hi.2
  · rw [if_neg hc]
    by_cases htq : s.torque_enabled = true
    · rw [if_pos htq]
      rcases heq : Servos.set_torque_enabled env false s with ⟨s', e'⟩
      have hsh := set_torque_shape env false s
      rw [heq] at hsh
      cases e' with
      | some err =>
        intro hcm
        rw [hsh.2.1] at hcm
        rcases hsh.2.2.2.2.2.2 with h1 | h2
        · rw [h1]
          exact hi.2 hcm
        · exact h2.1
      | none =>
        intro hcm
        have hok := set_torque_ok_torque env false s (by rw [heq])
        rw [heq] at hok
        exact hok
    · rw [if_neg htq]
      dsimp only
      intro hcm
      exact hi.2 hcm

lemma inv_start_calibration (env : Env) (s : St)
    (hb : ∀ t, txSucceeds (env.bus t) = true) (hi : StInv s) :
    StInv (Servos.start_calibration env s).1 := by
  refine ⟨invT_start_calibration env s hi.1, ?_⟩
  unfold Servos.start_calibration
  split
  · exact hi.2
  · split
    · exact hi.2
    · rename_i hc hcm0
      have hconn : s.connected = true := by
        revert hc
        cases s.connected <;> simp
      split
      · rcases heq : Servos.set_torque_enabled env false (startCalSt s)
          with ⟨s', e'⟩
        have hok := set_torque_ok_of env false (startCalSt s) hb hconn
        rw [heq] at hok
        cases e' with
        | some err => cases hok
        | none =>
          have htorq := set_torque_ok_torque env false (startCalSt s)
            (by rw [heq])
          rw [heq] at htorq
          intro hcm
          exact htorq
      · rename_i htq
        intro hcm
        simp only [Bool.not_eq_true] at htq
        exact htq

lemma inv_set_calibration_point (env : Env) (id : Nat) (point : String)
    (pos : Option ℤ) (s : St) (hi : StInv s) :
    StInv (Servos.set_calibration_point env id point pos s).1 := by
  have hf := set_cal_point_flags env id point pos s
  refine ⟨invT_set_calibration_point env id point pos s hi.1, ?_⟩
  intro hcm
  rw [hf.2.2.1] at hcm
  rw [hf.2.1]
  exact hi.2 hcm

lemma inv_end_calibration (env : Env) (s : St) (hi : StInv s) :
    StInv (Servos.end_calibration env s).1 := by
  refine ⟨invT_end_calibration env s hi.1, ?_⟩
  unfold Servos.end_calibration
  split
  · exact hi.2
  · split
    · intro hcm
      exact Bool.noConfusion hcm
    · split
      · intro hcm
        exact Bool.noConfusion hcm
      · rcases heq : Servos.set_torque_enabled env true (endCalibSaveSt s)
          with ⟨s2, e2⟩
        have hsh := set_torque_shape env true (endCalibSaveSt s)
        rw [heq] at hsh
        have hcal2 : s2.calibration_mode = false := hsh.2.1
        cases e2 with
        | some err =>
          intro hcm
          rw [hcal2] at hcm
          exact Bool.noConfusion hcm
        | none =>
          intro hcm
          rw [hcal2] at hcm
          exact Bool.noConfusion hcm

lemma inv_cancel_calibration (env : Env) (s : St) (hi : StInv s) :
    StInv (Servos.cancel_calibration env s).1 := by
  refine ⟨invT_cancel_calibration env s hi.1, ?_⟩
  unfold Servos.cancel_calibration
  split
  · exact hi.2
  · have hsh := set_torque_shape env true (cancelCalSt s)
    intro hcm
    rw [hsh.2.1] at hcm
    exact Bool.noConfusion hcm

lemma inv_set_position (env : Env) (ps : List (Nat × ℤ)) (s : St)
    (hi : StInv s) : StInv (Servos.set_position env ps s).1 :=
  quiet_inv (set_position_quiet env ps s) hi

lemma inv_set_angle (env : Env) (as' : List (Nat × ℚ)) (s : St)
    (hi : StInv s) : StInv (Servos.set_angle env as' s).1 :=
  quiet_inv (set_angle_quiet env as' s) hi

/-! ## Concrete fixtures for counterexamples and witnesses -/

/-- A bus on which every attempt succeeds; servo `id` reports position `id`. -/
def envAllOk : Env :=
  { bus := fun _ _ => true, readVal := fun id => (id : ℤ), portOk := true,
    p_coef := 8, i_coef := 0, d_coef := 16, max_accel := 254, accel := 254 }

/-- A bus on which every attempt fails. -/
def envAllFail : Env :=
  { bus := fun _ _ => false, readVal := fun _ => 0, portOk := true,
    p_coef := 8, i_coef := 0, d_coef := 16, max_accel := 254, accel := 254 }

/-- Connected, torque off, idle, two servos. -/
def stConnected : St :=
  { connected := true, torque_enabled := false, calibration_mode := false,
    is_calibrated := false, servo_ids := [1, 2], calibration := [],
    temp_calibration_data := [], savedFile := none, txCount := 0, events := [] }

/-- Fresh disconnected state with one servo. -/
def stDisconnected : St :=
  { connected := false, torque_enabled := false, calibration_mode := false,
    is_calibrated := false, servo_ids := [1], calibration := [],
    temp_calibration_data := [], savedFile := none, txCount := 0, events := [] }

/-- Calibration in progress, draft with only the zero point of servo 1. -/
def stCalIncomplete : St :=
  { connected := true, torque_enabled := false, calibration_mode := true,
    is_calibrated := false, servo_ids := [1], calibration := [],
    temp_calibration_data := [(1, ⟨some 0, none, none⟩)], savedFile := none,
    txCount := 0, events := [] }

/-- Calibration in progress with an entirely empty draft, over a previously
committed and persisted calibration. -/
def stCalEmptyDraft : St :=
  { connected := true, torque_enabled := false, calibration_mode := true,
    is_calibrated := true, servo_ids := [1],
    calibration := [(1, ⟨some 10, some 5, some 20⟩)],
    temp_calibration_data := [],
    savedFile := some [(1, ⟨some 10, some 5, some 20⟩)],
    txCount := 0, events := [] }

/-- Calibration in progress with a complete draft for the one servo. -/
def stCalComplete : St :=
  { connected := true, torque_enabled := false, calibration_mode := true,
    is_calibrated := false, servo_ids := [1], calibration := [],
    temp_calibration_data := [(1, ⟨some 10, some 5, some 20⟩)],
    savedFile := none, txCount := 0, events := [] }

/-- Connected with calibration in progress and torque off (the state
`start_calibration` leaves behind). -/
def stCalMode : St :=
  { connected := true, torque_enabled := false, calibration_mode := true,
    is_calibrated := false, servo_ids := [1], calibration := [],
    temp_calibration_data := [], savedFile := none, txCount := 0, events := [] }

/-! ## Claim theorems -/

/-- C1 (amended): `_read`/`_write` treat an empty servo-id list exactly like
an omitted one — `servo_ids or self.servo_ids` replaces `[]` by all
configured ids, so the call issues a group transaction over every configured
servo (and `_read` returns one value per configured servo) instead of being
a no-op. -/
theorem empty_id_list_defaults_to_all (env : Env) (name : String)
    (v : ValArg) (s : St) :
    Servos.read env name (some []) s = Servos.read env name none s ∧
    Servos.write env name v (some []) s = Servos.write env name v none s := by
  constructor <;> rfl

/-- C1 counterexample: reading `Present_Position` with an empty id list on a
two-servo bus returns two values and issues one bus transaction — not an
empty result with no transaction as the claim states. -/
theorem empty_id_list_not_noop :
    (Servos.read envAllOk "Present_Position" (some []) stConnected).2
      = .ok [1, 2] ∧
    (Servos.read envAllOk "Present_Position" (some []) stConnected).1.txCount
      = 1 := by
  constructor <;> rfl

/-- C2 (amended): after a successful `connect()` from a disconnected state
the device is connected with torque ENABLED — `connect` configures every
servo's Mode/PID/Lock/acceleration registers and then calls
`set_torque_enabled(True)`; it does not leave torque disabled. -/
theorem connect_enables_torque_and_configures (env : Env) (s : St)
    (hc : s.connected = false) (h : (Servos.connect env s).2 = none) :
    (Servos.connect env s).1.connected = true ∧
    (Servos.connect env s).1.torque_enabled = true ∧
    configWritesDone env (Servos.connect env s).1.events s.servo_ids = true :=
  connect_ok env s hc h

/-- C2 witness: the amended connect postcondition at a concrete disconnected
state on the all-OK bus. -/
theorem connect_enables_torque_and_configures_witness :
    (Servos.connect envAllOk stDisconnected).1.connected = true ∧
    (Servos.connect envAllOk stDisconnected).1.torque_enabled = true ∧
    configWritesDone envAllOk (Servos.connect envAllOk stDisconnected).1.events
      stDisconnected.servo_ids = true :=
  connect_enables_torque_and_configures envAllOk stDisconnected rfl rfl

/-- C2 counterexample: a successful `connect()` ends with `torque_enabled =
true`, refuting the claim that the state after connect is torque-disabled. -/
theorem connect_leaves_torque_enabled :
    (Servos.connect envAllOk stDisconnected).2 = none ∧
    (Servos.connect envAllOk stDisconnected).1.torque_enabled = true := by
  constructor <;> rfl

lemma isEmpty_false_of_ne_nil {α : Type} {l : List α} (h : l ≠ []) :
    l.isEmpty = false := by
  cases l with
  | nil => exact absurd rfl h
  | cons a t => rfl

/-- C3 (amended): when `end_calibration()` reports `IncompleteCalibration`,
the system has LEFT calibration mode (`calibration_mode = false`); the
operator must call `start_calibration()` again (losing the draft) rather
than remaining in `CalibrationInProgress` and retrying directly. -/
theorem incomplete_calibration_exits_calibration_mode (env : Env) (s : St)
    (missing : List (Nat × List String))
    (h : (Servos.end_calibration env s).2 = .incomplete missing) :
    (Servos.end_calibration env s).1.calibration_mode = false := by
  unfold Servos.end_calibration at h ⊢
  by_cases h1 : (!s.calibration_mode) = true
  · rw [if_pos h1] at h
    cases h
  · rw [if_neg h1] at h ⊢
    by_cases h2 : s.temp_calibration_data.isEmpty = true
    · rw [if_pos h2] at h
      cases h
    · rw [if_neg h2] at h ⊢
      by_cases h3 : (!(missingPoints s).isEmpty) = true
      · rw [if_pos h3]
      · rw [if_neg h3] at h ⊢
        rcases heq : Servos.set_torque_enabled env true (endCalibSaveSt s)
          with ⟨s2, e2⟩
        rw [heq] at h
        cases e2 with
        | some err => cases h
        | none => cases h

/-- C3 witness: an in-progress calibration whose draft has only servo 1's
zero point reports incomplete and is no longer in calibration mode. -/
theorem incomplete_calibration_exits_calibration_mode_witness :
    (Servos.end_calibration envAllOk stCalIncomplete).2
      = .incomplete [(1, ["min", "max"])] ∧
    (Servos.end_calibration envAllOk stCalIncomplete).1.calibration_mode
      = false :=
  ⟨rfl, incomplete_calibration_exits_calibration_mode envAllOk stCalIncomplete
    [(1, ["min", "max"])] rfl⟩

/-- C3 counterexample: in the same incomplete-draft scenario the claim says
the system REMAINS in `CalibrationInProgress`, but `calibration_mode` is
false after the call. -/
theorem incomplete_calibration_not_in_progress_after :
    (Servos.end_calibration envAllOk stCalIncomplete).2.isIncomplete = true ∧
    (Servos.end_calibration envAllOk stCalIncomplete).1.calibration_mode
      = false := by
  constructor <;> rfl

lemma missingPoints_ne_nil {s : St} {id : Nat} (hid : id ∈ s.servo_ids)
    (hmiss : servoMissing s id ≠ []) : missingPoints s ≠ [] := by
  intro h0
  have h1 := List.filterMap_eq_nil_iff.mp h0 id hid
  rw [if_neg (by simp [isEmpty_false_of_ne_nil hmiss])] at h1
  cases h1

/-- C4 (amended): with calibration in progress and a NON-EMPTY draft in
which some configured servo is missing one of zero/min/max,
`end_calibration()` leaves the committed calibration, the `is_calibrated`
flag, the calibration file and the event log unchanged (nothing is merged or
persisted) and reports `IncompleteCalibration`.  (An entirely empty draft —
every point missing — also commits and persists nothing, but is reported as
nothing-to-save rather than as `IncompleteCalibration`.) -/
theorem incomplete_draft_preserves_committed (env : Env) (s : St)
    (hcm : s.calibration_mode = true)
    (hne : s.temp_calibration_data ≠ [])
    (id : Nat) (hid : id ∈ s.servo_ids) (hmiss : servoMissing s id ≠ []) :
    Servos.end_calibration env s
      = ({ s with calibration_mode := false }, .incomplete (missingPoints s)) ∧
    (Servos.end_calibration env s).1.calibration = s.calibration ∧
    (Servos.end_calibration env s).1.is_calibrated = s.is_calibrated ∧
    (Servos.end_calibration env s).1.savedFile = s.savedFile ∧
    (Servos.end_calibration env s).1.events = s.events := by
  have hmp : missingPoints s ≠ [] := missingPoints_ne_nil hid hmiss
  have heq : Servos.end_calibration env s
      = ({ s with calibration_mode := false }, .incomplete (missingPoints s)) := by
    unfold Servos.end_calibration
    rw [if_neg (by simp [hcm]), if_neg (by simp [isEmpty_false_of_ne_nil hne]),
      if_pos (by simp [isEmpty_false_of_ne_nil hmp])]
  refine ⟨heq, ?_, ?_, ?_, ?_⟩ <;> rw [heq]

/-- C4 witness: the incomplete-draft preservation applied to the concrete
draft holding only servo 1's zero point. -/
theorem incomplete_draft_preserves_committed_witness :
    Servos.end_calibration envAllOk stCalIncomplete
      = ({ stCalIncomplete with calibration_mode := false },
         .incomplete (missingPoints stCalIncomplete)) ∧
    (Servos.end_calibration envAllOk stCalIncomplete).1.calibration
      = stCalIncomplete.calibration ∧
    (Servos.end_calibration envAllOk stCalIncomplete).1.is_calibrated
      = stCalIncomplete.is_calibrated ∧
    (Servos.end_calibration envAllOk stCalIncomplete).1.savedFile
      = stCalIncomplete.savedFile ∧
    (Servos.end_calibration envAllOk stCalIncomplete).1.events
      = stCalIncomplete.events :=
  incomplete_draft_preserves_committed envAllOk stCalIncomplete rfl
    (by decide) 1 (by decide) (by decide)

/-- C4 counterexample: an entirely empty draft — servo 1 missing all three
points, so within the claim's quantification — is reported as
nothing-to-save, not as `IncompleteCalibration`. -/
theorem empty_draft_reports_nothing_to_save :
    servoMissing stCalEmptyDraft 1 = ["zero", "min", "max"] ∧
    (Servos.end_calibration envAllOk stCalEmptyDraft).2 = .nothingToSave ∧
    (Servos.end_calibration envAllOk stCalEmptyDraft).2.isIncomplete
      = false := by
  refine ⟨rfl, rfl, rfl⟩

/-- C7 (amended): the half of the invariant `torque_enabled → connected`
holds in the initial state and is preserved by all nine public operations
under every bus behaviour.  The full invariant (adding
`calibration_mode → ¬torque_enabled`) also holds initially and is preserved
by `disconnect`, `set_torque_enabled(False)`, `set_calibration_point`,
`end_calibration`, `cancel_calibration`, `set_position` and `set_angle`
under every bus behaviour, and by `start_calibration` when its bus writes
succeed — but NOT by `set_torque_enabled(True)` or `connect`, which enable
torque even while calibration mode persists. -/
theorem device_state_invariant_preservation (env envB : Env) (sT s : St)
    (e : Bool) (id : Nat) (point : String) (pos : Option ℤ)
    (ps : List (Nat × ℤ)) (as' : List (Nat × ℚ))
    (ids : List Nat) (file : Option (List (Nat × CalEntry)))
    (hbus : ∀ t, txSucceeds (envB.bus t) = true)
    (hT : StInvTorque sT) (hI : StInv s) :
    StInv (initSt ids file) ∧
    StInvTorque (Servos.connect env sT).1 ∧
    StInvTorque (Servos.disconnect env sT).1 ∧
    StInvTorque (Servos.set_torque_enabled env e sT).1 ∧
    StInvTorque (Servos.start_calibration env sT).1 ∧
    StInvTorque (Servos.set_calibration_point env id point pos sT).1 ∧
    StInvTorque (Servos.end_calibration env sT).1 ∧
    StInvTorque (Servos.cancel_calibration env sT).1 ∧
    StInvTorque (Servos.set_position env ps sT).1 ∧
    StInvTorque (Servos.set_angle env as' sT).1 ∧
    StInv (Servos.disconnect env s).1 ∧
    StInv (Servos.set_torque_enabled env false s).1 ∧
    StInv (Servos.start_calibration envB s).1 ∧
    StInv (Servos.set_calibration_point env id point pos s).1 ∧
    StInv (Servos.end_calibration env s).1 ∧
    StInv (Servos.cancel_calibration env s).1 ∧
    StInv (Servos.set_position env ps s).1 ∧
    StInv (Servos.set_angle env as' s).1 :=
  ⟨⟨fun h => Bool.noConfusion h, fun _ => rfl⟩,
   invT_connect env sT hT,
   invT_disconnect env sT hT,
   invT_set_torque env e sT hT,
   invT_start_calibration env sT hT,
   invT_set_calibration_point env id point pos sT hT,
   invT_end_calibration env sT hT,
   invT_cancel_calibration env sT hT,
   invT_set_position env ps sT hT,
   invT_set_angle env as' sT hT,
   inv_disconnect env s hI,
   inv_set_torque_false env s hI,
   inv_start_calibration envB s hbus hI,
   inv_set_calibration_point env id point pos s hI,
   inv_end_calibration env s hI,
   inv_cancel_calibration env s hI,
   inv_set_position env ps s hI,
   inv_set_angle env as' s hI⟩

/-- C7 witness: the preservation bundle at a concrete reachable state on the
all-OK bus. -/
theorem device_state_invariant_preservation_witness :
    StInv (initSt [1] none) ∧
    StInvTorque (Servos.connect envAllOk stCalMode).1 ∧
    StInvTorque (Servos.disconnect envAllOk stCalMode).1 ∧
    StInvTorque (Servos.set_torque_enabled envAllOk true stCalMode).1 ∧
    StInvTorque (Servos.start_calibration envAllOk stCalMode).1 ∧
    StInvTorque (Servos.set_calibration_point envAllOk 1 "zero" (some 5)
      stCalMode).1 ∧
    StInvTorque (Servos.end_calibration envAllOk stCalMode).1 ∧
    StInvTorque (Servos.cancel_calibration envAllOk stCalMode).1 ∧
    StInvTorque (Servos.set_position envAllOk [(1, 5)] stCalMode).1 ∧
    StInvTorque (Servos.set_angle envAllOk [(1, 5)] stCalMode).1 ∧
    StInv (Servos.disconnect envAllOk stCalMode).1 ∧
    StInv (Servos.set_torque_enabled envAllOk false stCalMode).1 ∧
    StInv (Servos.start_calibration envAllOk stCalMode).1 ∧
    StInv (Servos.set_calibration_point envAllOk 1 "zero" (some 5)
      stCalMode).1 ∧
    StInv (Servos.end_calibration envAllOk stCalMode).1 ∧
    StInv (Servos.cancel_calibration envAllOk stCalMode).1 ∧
    StInv (Servos.set_position envAllOk [(1, 5)] stCalMode).1 ∧
    StInv (Servos.set_angle envAllOk [(1, 5)] stCalMode).1 :=
  device_state_invariant_preservation envAllOk envAllOk stCalMode stCalMode
    true 1 "zero" (some 5) [(1, 5)] [(1, 5)] [1] none (fun _ => rfl)
    (fun h => Bool.noConfusion h)
    ⟨fun h => Bool.noConfusion h, fun _ => rfl⟩

/-- C7 counterexample: from the reachable state "connected, torque off,
calibration in progress" — which satisfies the invariant — the public
operation `set_torque_enabled(True)` produces a state with both
`calibration_mode` and `torque_enabled` true, so the invariant is NOT
preserved by every public operation. -/
theorem torque_enable_breaks_calibration_invariant :
    StInv stCalMode ∧
    ¬ StInv (Servos.set_torque_enabled envAllOk true stCalMode).1 := by
  constructor
  · exact ⟨fun h => Bool.noConfusion h, fun _ => rfl⟩
  · intro hinv
    exact Bool.noConfusion (hinv.2 rfl)

lemma firstSuccAux_none (ok : Nat → Bool) :
    ∀ fuel start, (∀ j, start ≤ j → j < start + fuel → ok j = false) →
    firstSuccAux ok start fuel = none := by
  intro fuel
  induction fuel with
  | zero =>
    intro start _
    rfl
  | succ n ih =>
    intro start h
    unfold firstSuccAux
    have h0 : ok start = false := h start (le_refl start) (by omega)
    rw [if_neg (by simp [h0])]
    exact ih (start + 1) (fun j h1 h2 => h j (by omega) (by omega))

lemma firstSucc_none (ok : Nat → Bool)
    (h : ∀ j, j < NUM_RETRY → ok j = false) : firstSucc ok = none :=
  firstSuccAux_none ok NUM_RETRY 0 (fun j _ h2 => h j (by omega))

lemma write_fail_eq (env : Env) (name : String) (v : ValArg)
    (ids : Option (List Nat)) (s : St) (hc : s.connected = true)
    (hfail : ∀ j, j < NUM_RETRY → env.bus s.txCount j = false)
    (hname : (tableLookup name).isSome = true) :
    Servos.write env name v ids s
      = ({ s with
           txCount := s.txCount + 1,
           events := s.events ++
             [.tx true name (effIds ids s) (writeValues v (effIds ids s))
               NUM_RETRY (NUM_RETRY - 1) false] },
         some .commError) := by
  have hfs := firstSucc_none (env.bus s.txCount) hfail
  have ha : attemptsMade (env.bus s.txCount) = NUM_RETRY := by
    unfold attemptsMade
    rw [hfs]
  have hsl : sleepsMade (env.bus s.txCount) = NUM_RETRY - 1 := by
    unfold sleepsMade
    rw [hfs]
  have hts : txSucceeds (env.bus s.txCount) = false := by
    unfold txSucceeds
    rw [hfs]
    rfl
  unfold Servos.write
  rw [if_neg (by simp [hc])]
  rcases hlk : tableLookup name with _ | v2
  · rw [hlk] at hname
    cases hname
  · dsimp only
    rw [ha, hsl, hts, if_neg (by simp)]

lemma read_fail_eq (env : Env) (name : String)
    (ids : Option (List Nat)) (s : St) (hc : s.connected = true)
    (hfail : ∀ j, j < NUM_RETRY → env.bus s.txCount j = false)
    (hname : (tableLookup name).isSome = true) :
    Servos.read env name ids s
      = ({ s with
           txCount := s.txCount + 1,
           events := s.events ++
             [.tx false name (effIds ids s) []
               NUM_RETRY (NUM_RETRY - 1) false] },
         .error .commError) := by
  have hfs := firstSucc_none (env.bus s.txCount) hfail
  have ha : attemptsMade (env.bus s.txCount) = NUM_RETRY := by
    unfold attemptsMade
    rw [hfs]
  have hsl : sleepsMade (env.bus s.txCount) = NUM_RETRY - 1 := by
    unfold sleepsMade
    rw [hfs]
  have hts : txSucceeds (env.bus s.txCount) = false := by
    unfold txSucceeds
    rw [hfs]
    rfl
  unfold Servos.read
  rw [if_neg (by simp [hc])]
  rcases hlk : tableLookup name with _ | v2
  · rw [hlk] at hname
    cases hname
  · dsimp only
    rw [ha, hsl, hts, if_neg (by simp)]

lemma read_ok_length (env : Env) (name : String) (ids : Option (List Nat))
    (s : St) (vs : List ℤ)
    (hok : (Servos.read env name ids s).2 = .ok vs) :
    vs.length = (effIds ids s).length := by
  unfold Servos.read at hok
  split at hok
  · cases hok
  · split at hok
    · cases hok
    · dsimp only at hok
      split at hok
      · cases hok
        exact (List.length_map _ _)
      · cases hok

/-- C8: when every bus attempt of the transaction fails, `_write` and
`_read` perform exactly `NUM_RETRY = 10` packet attempts with a sleep
between consecutive attempts (9 sleeps), then raise the communication
error; and a group read is all-or-nothing: whenever it returns values at
all, it returns exactly one value per requested servo id. -/
theorem retry_exhaustion_all_or_nothing (env : Env) (s : St) (name : String)
    (v : ValArg) (ids : Option (List Nat))
    (env2 : Env) (s2 : St) (name2 : String) (ids2 : Option (List Nat))
    (vs : List ℤ)
    (hc : s.connected = true)
    (hfail : ∀ j, j < NUM_RETRY → env.bus s.txCount j = false)
    (hname : (tableLookup name).isSome = true)
    (hok : (Servos.read env2 name2 ids2 s2).2 = .ok vs) :
    NUM_RETRY = 10 ∧
    (Servos.write env name v ids s).2 = some .commError ∧
    (Servos.write env name v ids s).1.events = s.events ++
      [.tx true name (effIds ids s) (writeValues v (effIds ids s))
        NUM_RETRY (NUM_RETRY - 1) false] ∧
    (Servos.read env name ids s).2 = .error .commError ∧
    (Servos.read env name ids s).1.events = s.events ++
      [.tx false name (effIds ids s) [] NUM_RETRY (NUM_RETRY - 1) false] ∧
    vs.length = (effIds ids2 s2).length := by
  have hw := write_fail_eq env name v ids s hc hfail hname
  have hr := read_fail_eq env name ids s hc hfail hname
  refine ⟨rfl, ?_, ?_, ?_, ?_, read_ok_length env2 name2 ids2 s2 vs hok⟩
  · rw [hw]
  · rw [hw]
  · rw [hr]
  · rw [hr]

/-- C8 witness: the retry-exhaustion behaviour on the all-fail bus, and the
all-or-nothing read on the all-OK bus. -/
theorem retry_exhaustion_all_or_nothing_witness :
    NUM_RETRY = 10 ∧
    (Servos.write envAllFail "Goal_Position" (.scalar 5) none stConnected).2
      = some .commError ∧
    (Servos.write envAllFail "Goal_Position" (.scalar 5) none
        stConnected).1.events = stConnected.events ++
      [.tx true "Goal_Position" (effIds none stConnected)
        (writeValues (.scalar 5) (effIds none stConnected))
        NUM_RETRY (NUM_RETRY - 1) false] ∧
    (Servos.read envAllFail "Goal_Position" none stConnected).2
      = .error .commError ∧
    (Servos.read envAllFail "Goal_Position" none stConnected).1.events
      = stConnected.events ++
      [.tx false "Goal_Position" (effIds none stConnected) []
        NUM_RETRY (NUM_RETRY - 1) false] ∧
    ([1, 2] : List ℤ).length
      = (effIds (some [1, 2]) stConnected).length :=
  retry_exhaustion_all_or_nothing envAllFail stConnected "Goal_Position"
    (.scalar 5) none envAllOk stConnected "Present_Position" (some [1, 2])
    [1, 2] rfl (fun j _ => rfl) rfl rfl

/-- C10: calling `end_calibration()` in calibration mode with a completely
empty draft returns the nothing-to-save outcome (no error): it only exits
calibration mode, leaving the committed calibration, `is_calibrated`, the
calibration file, torque and the event log untouched (nothing persisted) —
whereas the complete-draft path on a live bus re-enables torque
automatically and reports a save. -/
theorem end_calibration_empty_draft_noop (env : Env) (s s' : St)
    (hcm : s.calibration_mode = true)
    (hemp : s.temp_calibration_data = [])
    (hcm' : s'.calibration_mode = true)
    (hconn' : s'.connected = true)
    (hbus : ∀ t, txSucceeds (env.bus t) = true)
    (hne' : s'.temp_calibration_data ≠ [])
    (hcomplete : missingPoints s' = []) :
    Servos.end_calibration env s
      = ({ s with calibration_mode := false }, .nothingToSave) ∧
    (Servos.end_calibration env s').1.torque_enabled = true ∧
    (Servos.end_calibration env s').2 = .saved := by
  have hempty : Servos.end_calibration env s
      = ({ s with calibration_mode := false }, .nothingToSave) := by
    unfold Servos.end_calibration
    rw [if_neg (by simp [hcm]), if_pos (by simp [hemp])]
  have hbranch : Servos.end_calibration env s'
      = (match Servos.set_torque_enabled env true (endCalibSaveSt s') with
         | (s2, some e) => (s2, EndOutcome.err e)
         | (s2, none) => (s2, EndOutcome.saved)) := by
    unfold Servos.end_calibration
    rw [if_neg (by simp [hcm']), if_neg (by simp [isEmpty_false_of_ne_nil hne']),
      if_neg (by simp [hcomplete])]
  have hok := set_torque_ok_of env true (endCalibSaveSt s') hbus hconn'
  have htq := set_torque_ok_torque env true (endCalibSaveSt s') hok
  refine ⟨hempty, ?_, ?_⟩
  · rw [hbranch]
    rcases heq : Servos.set_torque_enabled env true (endCalibSaveSt s')
      with ⟨s2, e2⟩
    rw [heq] at hok htq
    cases e2 with
    | some err => cases hok
    | none => exact htq
  · rw [hbranch]
    rcases heq : Servos.set_torque_enabled env true (endCalibSaveSt s')
      with ⟨s2, e2⟩
    rw [heq] at hok
    cases e2 with
    | some err => cases hok
    | none => rfl

/-- C10 witness: the empty-draft no-op and the complete-draft torque
re-enable at concrete states on the all-OK bus. -/
theorem end_calibration_empty_draft_noop_witness :
    Servos.end_calibration envAllOk stCalEmptyDraft
      = ({ stCalEmptyDraft with calibration_mode := false }, .nothingToSave) ∧
    (Servos.end_calibration envAllOk stCalComplete).1.torque_enabled = true ∧
    (Servos.end_calibration envAllOk stCalComplete).2 = .saved :=
  end_calibration_empty_draft_noop envAllOk stCalEmptyDraft stCalComplete
    rfl rfl rfl rfl (fun _ => rfl) (by decide) rfl
